import Mathlib

/-!
Shallow embedding of the Model Registry & Router core of
`examples/streamlit/slop_with_models.py`.

The Python module keeps a global dict `MODEL_CLIENT_MAP` mapping model
identifiers to OpenAI client objects, fills it in `initialize_model_map()`
by probing each configured endpoint, and routes `/chat` requests through it
in `chat()`.  Here the mutable dict becomes an explicitly threaded
association list with Python-dict semantics (insertion order preserved,
assignment overwrites in place, membership by key), a client object is
identified with the `Endpoint` record it was constructed from (one
`OpenAI(base_url, api_key)` client per endpoint), and the outcome of the
remote `client.models.list()` call is carried as a `probe` field of the
endpoint, since it is external input to the algorithm.  Logging calls are
recorded as a list of `LogEntry` so that log-level claims are statable.
-/

namespace Slop

/-- Outcome of `client.models.list()` for one endpoint: either the list of
model ids reported by the backend (`m.id` for each entry of
`response.data`), or the exception text when the call raises. -/
inductive ProbeResult where
  | success (models : List String)
  | failure (err : String)
deriving DecidableEq, Repr

/-- One configured backend endpoint, as built from `MODEL_ENDPOINT_i` /
`MODEL_API_KEY_i`: `{"name": ..., "base_url": ..., "api_key": ...}`,
together with the outcome its probe would report.  The record also stands
for the `OpenAI` client constructed from it (the backend handle). -/
structure Endpoint where
  name : String
  base_url : String
  api_key : String
  probe : ProbeResult
deriving DecidableEq, Repr

/-- Log levels of the `logging` calls in the module. -/
inductive LogLevel where
  | debug
  | info
  | warning
  | error
deriving DecidableEq, Repr

/-- One record emitted through `logger`. -/
structure LogEntry where
  level : LogLevel
  msg : String
deriving DecidableEq, Repr

/-- `MODEL_CLIENT_MAP`: a Python dict from model id to client, embedded as
an insertion-ordered association list. -/
abbrev ClientMap := List (String × Endpoint)

/-- Python `k in d`. -/
def dict_contains {α : Type} (m : List (String × α)) (k : String) : Bool :=
  match m with
  | [] => false
  | p :: rest => if p.1 = k then true else dict_contains rest k

/-- Python `d[k] = v`: overwrite in place if the key is present (keeping
its position in insertion order), otherwise append at the end. -/
def dict_set {α : Type} (m : List (String × α)) (k : String) (v : α) :
    List (String × α) :=
  match m with
  | [] => [(k, v)]
  | p :: rest => if p.1 = k then (k, v) :: rest else p :: dict_set rest k v

/-- Python `d[k]` as an option (first — and only — occurrence of the key). -/
def dict_get? {α : Type} (m : List (String × α)) (k : String) : Option α :=
  match m with
  | [] => none
  | p :: rest => if p.1 = k then some p.2 else dict_get? rest k

/-- Python `list(d.keys())`, in insertion order. -/
def dict_keys {α : Type} (m : List (String × α)) : List String :=
  m.map (fun p => p.1)

/-- Body of the inner `for m in model_list` loop of `initialize_model_map`:
`if model_id:` insert first-seen-wins (duplicates warned and kept), blank
ids warned and skipped. -/
def modelLoopStep (ep : Endpoint) (st : ClientMap × List LogEntry)
    (model_id : String) : ClientMap × List LogEntry :=
  if model_id ≠ "" then
    if dict_contains st.1 model_id then
      (st.1, st.2 ++ [⟨.warning,
        "Duplicate model ID " ++ model_id ++ " found; keeping first instance."⟩])
    else
      (dict_set st.1 model_id ep, st.2 ++ [⟨.info,
        "Added model " ++ model_id ++ " from " ++ ep.name⟩])
  else
    (st.1, st.2 ++ [⟨.warning,
      "Encountered model with no ID from " ++ ep.name⟩])

/-- Body of the outer `for ep in ENDPOINTS` loop of `initialize_model_map`:
probe the endpoint; on failure assign the fallback entry
`<name>:default → client` (a plain dict assignment) and continue; on
success fold the reported ids through `modelLoopStep`. -/
def initialize_step (st : ClientMap × List LogEntry) (ep : Endpoint) :
    ClientMap × List LogEntry :=
  let st := (st.1, st.2 ++ [⟨.info,
    "Querying endpoint: " ++ ep.name ++ " (" ++ ep.base_url ++ ")"⟩])
  match ep.probe with
  | .failure e =>
      let default_model := ep.name ++ ":default"
      (dict_set st.1 default_model ep,
       st.2 ++ [⟨.error, "Failed to list models for " ++ ep.name ++ ": " ++ e⟩,
                ⟨.info, "Added fallback model " ++ default_model ++ " for " ++ ep.name⟩])
  | .success model_list =>
      model_list.foldl (modelLoopStep ep) st

/-- `initialize_model_map()`: clear `MODEL_CLIENT_MAP` (the previous map
`prev` is discarded wholesale), warn and stop on an empty endpoint list,
otherwise fold every endpoint through `initialize_step`.  Returns the new
map together with the emitted log. -/
def initialize_model_map (prev : ClientMap) (endpoints : List Endpoint) :
    ClientMap × List LogEntry :=
  let _ := prev
  let map0 : ClientMap := []
  let logs0 : List LogEntry := [⟨.info, "Initializing model map..."⟩]
  if endpoints = [] then
    (map0, logs0 ++ [⟨.warning, "No endpoints configured in environment variables."⟩])
  else
    let st := endpoints.foldl initialize_step (map0, logs0)
    let st := (st.1, st.2 ++ [⟨.info, "Loaded models."⟩])
    if st.1 = [] then
      (st.1, st.2 ++ [⟨.warning, "No models were successfully loaded."⟩])
    else st

/-- The map produced by an initialization run (log discarded). -/
def modelMap (endpoints : List Endpoint) : ClientMap :=
  (initialize_model_map [] endpoints).1

/-- A chat message dict as sent by callers; `role` and `content` keys may
each be absent (`messages: list[dict]` in the Pydantic model). -/
structure ChatMessage where
  role : Option String
  content : Option String
deriving DecidableEq, Repr

/-- The `/chat` request body: `messages: list[dict]`, `model: str | None`. -/
structure ChatRequest where
  messages : List ChatMessage
  model : Option String
deriving DecidableEq, Repr

/-- One outbound `client.chat.completions.create(...)` dispatch: which
client it went through, and the `model=` and `messages=` arguments. -/
structure OutboundCall where
  target : Endpoint
  model : String
  messages : List ChatMessage
deriving DecidableEq, Repr

/-- What `chat()` returns to the caller: a 200 with the assistant content,
or an error body with its HTTP status code. -/
inductive ChatOutcome where
  | ok (content : String)
  | err (msg : String) (code : Nat)
deriving DecidableEq, Repr

/-- Python truthiness of an `str | None` value: `None` and `""` are falsy. -/
def pyTruthy : Option String → Bool
  | none => false
  | some s => !(s == "")

/-- Python `a or b` on `str | None` values. -/
def pyOrStr (a b : Option String) : Option String :=
  if pyTruthy a then a else b

/-- `list(MODEL_CLIENT_MAP.keys())[0] if MODEL_CLIENT_MAP else None`. -/
def first_key (m : ClientMap) : Option String :=
  match m with
  | [] => none
  | p :: _ => some p.1

/-- Line 187: `body.messages[0].get("content", "nothing") if body.messages
else "nothing"`. -/
def extract_message (messages : List ChatMessage) : String :=
  match messages with
  | [] => "nothing"
  | m0 :: _ => m0.content.getD "nothing"

/-- `chat(body)`: extract the first message content (placeholder
`"nothing"` when absent), resolve `model_id` as `body.model or <first
key>`, 404 when falsy or not a key, otherwise dispatch a single
reconstructed user message through the resolved client.  `respond` is the
backend: content on success, exception text on failure.  Also returns the
list of outbound dispatches issued. -/
def chat (registry : ClientMap) (respond : OutboundCall → Except String String)
    (body : ChatRequest) : ChatOutcome × List OutboundCall :=
  let message : String := extract_message body.messages
  let model_id : Option String := pyOrStr body.model (first_key registry)
  if !(pyTruthy model_id) || !(dict_contains registry (model_id.getD "")) then
    (.err "Model not found or no models available" 404, [])
  else
    match dict_get? registry (model_id.getD "") with
    | none => (.err "Model not found or no models available" 404, [])
    | some client =>
      let call : OutboundCall := ⟨client, model_id.getD "", [⟨some "user", some message⟩]⟩
      match respond call with
      | .ok content => (.ok content, [call])
      | .error e => (.err e 500, [call])

/-- `/models`: `list(MODEL_CLIENT_MAP.keys())`. -/
def list_models (m : ClientMap) : List String :=
  dict_keys m

/-- Whether `ep`'s probe succeeds and reports the id `mid`. -/
def reportsB (ep : Endpoint) (mid : String) : Bool :=
  match ep.probe with
  | .success ms => decide (mid ∈ ms)
  | .failure _ => false

/-! ### Map-only view of initialization

`initialize_step` threads the dict and the log together; for reasoning
about the registry contents we project out the dict component. -/

/-- Map component of `modelLoopStep`. -/
def insertModel (ep : Endpoint) (m : ClientMap) (model_id : String) : ClientMap :=
  if model_id ≠ "" then
    if dict_contains m model_id then m else dict_set m model_id ep
  else m

/-- Map component of `initialize_step`. -/
def mapStep (m : ClientMap) (ep : Endpoint) : ClientMap :=
  match ep.probe with
  | .failure _ => dict_set m (ep.name ++ ":default") ep
  | .success model_list => model_list.foldl (insertModel ep) m

theorem modelLoopStep_fst (ep : Endpoint) (st : ClientMap × List LogEntry)
    (mid : String) : (modelLoopStep ep st mid).1 = insertModel ep st.1 mid := by
  unfold modelLoopStep insertModel
  split_ifs <;> rfl

theorem foldl_modelLoopStep_fst (ep : Endpoint) (models : List String)
    (st : ClientMap × List LogEntry) :
    (models.foldl (modelLoopStep ep) st).1 = models.foldl (insertModel ep) st.1 := by
  induction models generalizing st with
  | nil => rfl
  | cons mid rest ih => rw [List.foldl_cons, List.foldl_cons, ih, modelLoopStep_fst]

theorem initialize_step_fst (st : ClientMap × List LogEntry) (ep : Endpoint) :
    (initialize_step st ep).1 = mapStep st.1 ep := by
  cases hp : ep.probe with
  | failure e => simp only [initialize_step, mapStep, hp]
  | success ms =>
    simp only [initialize_step, mapStep, hp]
    exact foldl_modelLoopStep_fst ep ms _

theorem foldl_initialize_step_fst (eps : List Endpoint)
    (st : ClientMap × List LogEntry) :
    (eps.foldl initialize_step st).1 = eps.foldl mapStep st.1 := by
  induction eps generalizing st with
  | nil => rfl
  | cons ep rest ih => rw [List.foldl_cons, List.foldl_cons, ih, initialize_step_fst]

theorem initialize_model_map_fst (prev : ClientMap) (eps : List Endpoint) :
    (initialize_model_map prev eps).1 = eps.foldl mapStep [] := by
  unfold initialize_model_map
  by_cases h : eps = []
  · subst h; rfl
  · simp only [if_neg h]
    split <;> exact foldl_initialize_step_fst eps _

theorem modelMap_eq (eps : List Endpoint) :
    modelMap eps = eps.foldl mapStep [] :=
  initialize_model_map_fst [] eps

/-! ### Dictionary lemmas -/

theorem dict_keys_cons {α : Type} (p : String × α) (rest : List (String × α)) :
    dict_keys (p :: rest) = p.1 :: dict_keys rest := rfl

theorem dict_contains_eq_isSome {α : Type} (m : List (String × α)) (k : String) :
    dict_contains m k = (dict_get? m k).isSome := by
  induction m with
  | nil => rfl
  | cons p rest ih => by_cases h : p.1 = k <;> simp [dict_contains, dict_get?, h, ih]

theorem dict_get?_set_self {α : Type} (m : List (String × α)) (k : String) (v : α) :
    dict_get? (dict_set m k v) k = some v := by
  induction m with
  | nil => simp [dict_set, dict_get?]
  | cons p rest ih =>
    by_cases h : p.1 = k
    · simp [dict_set, h, dict_get?]
    · simp [dict_set, h, dict_get?, ih]

theorem dict_get?_set_ne {α : Type} (m : List (String × α)) (kw k : String) (v : α)
    (h : kw ≠ k) : dict_get? (dict_set m kw v) k = dict_get? m k := by
  induction m with
  | nil => simp [dict_set, dict_get?, h]
  | cons p rest ih =>
    by_cases hp : p.1 = kw
    · simp [dict_set, hp, dict_get?, h]
    · simp [dict_set, hp, dict_get?, ih]

theorem dict_contains_set_self {α : Type} (m : List (String × α)) (k : String)
    (v : α) : dict_contains (dict_set m k v) k = true := by
  rw [dict_contains_eq_isSome, dict_get?_set_self]; rfl

theorem dict_contains_set_ne {α : Type} (m : List (String × α)) (kw k : String)
    (v : α) (h : kw ≠ k) : dict_contains (dict_set m kw v) k = dict_contains m k := by
  rw [dict_contains_eq_isSome, dict_get?_set_ne m kw k v h, dict_contains_eq_isSome]

theorem dict_contains_set_mono {α : Type} (m : List (String × α)) (kw k : String)
    (v : α) (h : dict_contains m k = true) :
    dict_contains (dict_set m kw v) k = true := by
  by_cases hk : kw = k
  · subst hk; exact dict_contains_set_self m kw v
  · rw [dict_contains_set_ne m kw k v hk]; exact h

theorem mem_dict_keys_set {α : Type} (m : List (String × α)) (kw a : String)
    (v : α) : a ∈ dict_keys (dict_set m kw v) ↔ a ∈ dict_keys m ∨ a = kw := by
  induction m with
  | nil => simp [dict_set, dict_keys]
  | cons p rest ih =>
    by_cases hp : p.1 = kw
    · simp only [dict_set]
      rw [if_pos hp]
      simp only [dict_keys_cons, List.mem_cons, hp]
      tauto
    · simp only [dict_set]
      rw [if_neg hp]
      simp only [dict_keys_cons, List.mem_cons, ih]
      tauto

theorem dict_keys_nodup_set {α : Type} (m : List (String × α)) (kw : String)
    (v : α) (h : (dict_keys m).Nodup) : (dict_keys (dict_set m kw v)).Nodup := by
  induction m with
  | nil => simp [dict_set, dict_keys]
  | cons p rest ih =>
    simp only [dict_keys_cons, List.nodup_cons] at h
    by_cases hp : p.1 = kw
    · simp only [dict_set, if_pos hp, dict_keys_cons, List.nodup_cons]
      exact ⟨hp ▸ h.1, h.2⟩
    · simp only [dict_set, if_neg hp, dict_keys_cons, List.nodup_cons]
      refine ⟨fun hmem => ?_, ih h.2⟩
      rcases (mem_dict_keys_set rest kw p.1 v).mp hmem with h1 | h2
      · exact h.1 h1
      · exact hp h2

theorem dict_contains_iff_mem {α : Type} (m : List (String × α)) (k : String) :
    dict_contains m k = true ↔ k ∈ dict_keys m := by
  induction m with
  | nil => simp [dict_contains, dict_keys]
  | cons p rest ih =>
    by_cases h : p.1 = k
    · simp [dict_contains, dict_keys_cons, h]
    · simp only [dict_contains, if_neg h, dict_keys_cons, List.mem_cons, ih]
      constructor
      · exact fun hm => Or.inr hm
      · rintro (he | hm)
        · exact absurd he.symm h
        · exact hm

theorem dict_countP_eq_zero {α : Type} (m : List (String × α)) (k : String)
    (h : k ∉ dict_keys m) : m.countP (fun p => p.1 == k) = 0 := by
  rw [List.countP_eq_zero]
  intro q hq hbeq
  have hqk : q.1 = k := by simpa using hbeq
  exact h (hqk ▸ List.mem_map_of_mem (fun p => p.1) hq)

theorem dict_countP_eq_one {α : Type} (m : List (String × α)) (k : String) (v : α)
    (hnd : (dict_keys m).Nodup) (hget : dict_get? m k = some v) :
    m.countP (fun p => p.1 == k) = 1 := by
  induction m with
  | nil => simp [dict_get?] at hget
  | cons p rest ih =>
    simp only [dict_keys_cons, List.nodup_cons] at hnd
    by_cases h : p.1 = k
    · have h0 : rest.countP (fun q => q.1 == k) = 0 :=
        dict_countP_eq_zero rest k (h ▸ hnd.1)
      rw [List.countP_cons]
      simp [h, h0]
    · rw [dict_get?, if_neg h] at hget
      rw [List.countP_cons]
      simp [h, ih hnd.2 hget]

/-! ### Behaviour of one initialization step -/

theorem contains_insertModel_mono (ep : Endpoint) (m : ClientMap) (mid k : String)
    (h : dict_contains m k = true) :
    dict_contains (insertModel ep m mid) k = true := by
  unfold insertModel
  split_ifs <;> first
    | exact h
    | exact dict_contains_set_mono m mid k ep h

theorem get?_insertModel_of_contains (ep : Endpoint) (m : ClientMap) (mid k : String)
    (h : dict_contains m k = true) :
    dict_get? (insertModel ep m mid) k = dict_get? m k := by
  unfold insertModel
  split_ifs with h1 h2
  · rfl
  · by_cases hmk : mid = k
    · subst hmk; exact absurd h (by simp [h2])
    · exact dict_get?_set_ne m mid k ep hmk
  · rfl

theorem contains_foldl_insertModel_mono (ep : Endpoint) (models : List String)
    (m : ClientMap) (k : String) (h : dict_contains m k = true) :
    dict_contains (models.foldl (insertModel ep) m) k = true := by
  induction models generalizing m with
  | nil => exact h
  | cons mid rest ih =>
    rw [List.foldl_cons]
    exact ih _ (contains_insertModel_mono ep m mid k h)

theorem get?_foldl_insertModel_of_contains (ep : Endpoint) (models : List String)
    (m : ClientMap) (k : String) (h : dict_contains m k = true) :
    dict_get? (models.foldl (insertModel ep) m) k = dict_get? m k := by
  induction models generalizing m with
  | nil => rfl
  | cons mid rest ih =>
    rw [List.foldl_cons, ih _ (contains_insertModel_mono ep m mid k h),
      get?_insertModel_of_contains ep m mid k h]

theorem get?_insertModel_of_ne (ep : Endpoint) (m : ClientMap) (mid k : String)
    (hmk : mid ≠ k) : dict_get? (insertModel ep m mid) k = dict_get? m k := by
  unfold insertModel
  split_ifs
  · rfl
  · exact dict_get?_set_ne m mid k ep hmk
  · rfl

theorem get?_foldl_insertModel_of_not_mem (ep : Endpoint) (models : List String)
    (m : ClientMap) (k : String) (h : k ∉ models) :
    dict_get? (models.foldl (insertModel ep) m) k = dict_get? m k := by
  induction models generalizing m with
  | nil => rfl
  | cons mid rest ih =>
    have hmk : mid ≠ k := fun e => h (e ▸ List.mem_cons_self mid rest)
    rw [List.foldl_cons, ih _ (fun hk => h (List.mem_cons_of_mem mid hk)),
      get?_insertModel_of_ne ep m mid k hmk]

theorem contains_foldl_insertModel_of_not_mem (ep : Endpoint) (models : List String)
    (m : ClientMap) (k : String) (h : k ∉ models) :
    dict_contains (models.foldl (insertModel ep) m) k = dict_contains m k := by
  rw [dict_contains_eq_isSome, get?_foldl_insertModel_of_not_mem ep models m k h,
    dict_contains_eq_isSome]

theorem get?_foldl_insertModel_of_mem (ep : Endpoint) (models : List String)
    (m : ClientMap) (k : String) (hk : k ≠ "") (hmem : k ∈ models)
    (hnc : dict_contains m k = false) :
    dict_get? (models.foldl (insertModel ep) m) k = some ep := by
  induction models generalizing m with
  | nil => cases hmem
  | cons mid rest ih =>
    rw [List.foldl_cons]
    by_cases hmk : mid = k
    · subst hmk
      have hstep : dict_get? (insertModel ep m mid) mid = some ep := by
        unfold insertModel
        rw [if_pos hk, if_neg (by simp [hnc]), dict_get?_set_self]
      have hc : dict_contains (insertModel ep m mid) mid = true := by
        rw [dict_contains_eq_isSome, hstep]; rfl
      rw [get?_foldl_insertModel_of_contains ep rest _ mid hc, hstep]
    · rcases List.mem_cons.mp hmem with he | he
      · exact absurd he.symm hmk
      · have hnc2 : dict_contains (insertModel ep m mid) k = false := by
          unfold insertModel
          split_ifs
          · exact hnc
          · rw [dict_contains_set_ne m mid k ep hmk]; exact hnc
          · exact hnc
        exact ih _ he hnc2

theorem contains_foldl_insertModel_of_mem (ep : Endpoint) (models : List String)
    (m : ClientMap) (k : String) (hk : k ≠ "") (hmem : k ∈ models) :
    dict_contains (models.foldl (insertModel ep) m) k = true := by
  induction models generalizing m with
  | nil => cases hmem
  | cons mid rest ih =>
    rw [List.foldl_cons]
    rcases List.mem_cons.mp hmem with he | he
    · subst he
      have hc : dict_contains (insertModel ep m k) k = true := by
        unfold insertModel
        rw [if_pos hk]
        split_ifs with h2
        · exact h2
        · exact dict_contains_set_self m k ep
      exact contains_foldl_insertModel_mono ep rest _ k hc
    · exact ih _ he

/-! ### String helpers -/

theorem string_append_right_cancel (a b c : String) (h : a ++ c = b ++ c) :
    a = b := by
  have hd := congrArg String.data h
  simp [String.data_append] at hd
  exact String.ext hd

theorem default_key_ne_empty (a : String) : a ++ ":default" ≠ "" := by
  intro h
  have hl := congrArg String.length h
  rw [String.length_append] at hl
  have h8 : (":default").length = 8 := rfl
  have h0 : ("" : String).length = 0 := rfl
  rw [h8, h0] at hl
  omega

/-! ### Behaviour of a whole endpoint step and of the endpoint fold -/

theorem contains_mapStep_mono (m : ClientMap) (ep : Endpoint) (k : String)
    (h : dict_contains m k = true) : dict_contains (mapStep m ep) k = true := by
  cases hp : ep.probe with
  | failure e =>
    simp only [mapStep, hp]
    exact dict_contains_set_mono m _ k ep h
  | success ms =>
    simp only [mapStep, hp]
    exact contains_foldl_insertModel_mono ep ms m k h

theorem get?_mapStep_preserve (m : ClientMap) (ep : Endpoint) (k : String)
    (v : Endpoint) (h : dict_get? m k = some v)
    (hfb : ∀ e, ep.probe = .failure e → ep.name ++ ":default" ≠ k) :
    dict_get? (mapStep m ep) k = some v := by
  cases hp : ep.probe with
  | failure e =>
    simp only [mapStep, hp]
    rw [dict_get?_set_ne m _ k ep (hfb e hp)]
    exact h
  | success ms =>
    simp only [mapStep, hp]
    rw [get?_foldl_insertModel_of_contains ep ms m k
      (by rw [dict_contains_eq_isSome, h]; rfl)]
    exact h

theorem contains_mapStep_untouched (m : ClientMap) (ep : Endpoint) (k : String)
    (hr : reportsB ep k = false)
    (hfb : ∀ e, ep.probe = .failure e → ep.name ++ ":default" ≠ k)
    (h : dict_contains m k = false) :
    dict_contains (mapStep m ep) k = false := by
  cases hp : ep.probe with
  | failure e =>
    simp only [mapStep, hp]
    rw [dict_contains_set_ne m _ k ep (hfb e hp)]
    exact h
  | success ms =>
    simp only [mapStep, hp]
    have hnm : k ∉ ms := by simpa [reportsB, hp] using hr
    rw [contains_foldl_insertModel_of_not_mem ep ms m k hnm]
    exact h

theorem get?_mapStep_insert (m : ClientMap) (ep : Endpoint) (k : String)
    (hk : k ≠ "") (hr : reportsB ep k = true)
    (hnc : dict_contains m k = false) :
    dict_get? (mapStep m ep) k = some ep := by
  cases hp : ep.probe with
  | failure e => simp [reportsB, hp] at hr
  | success ms =>
    simp only [mapStep, hp]
    have hmem : k ∈ ms := by simpa [reportsB, hp] using hr
    exact get?_foldl_insertModel_of_mem ep ms m k hk hmem hnc

theorem get?_foldl_mapStep_preserve (eps : List Endpoint) (m : ClientMap)
    (k : String) (v : Endpoint) (h : dict_get? m k = some v)
    (hfb : ∀ ep ∈ eps, ∀ e, ep.probe = .failure e → ep.name ++ ":default" ≠ k) :
    dict_get? (eps.foldl mapStep m) k = some v := by
  induction eps generalizing m with
  | nil => exact h
  | cons ep rest ih =>
    rw [List.foldl_cons]
    exact ih _
      (get?_mapStep_preserve m ep k v h (hfb ep (List.mem_cons_self ep rest)))
      (fun e he => hfb e (List.mem_cons_of_mem ep he))

theorem contains_foldl_mapStep_mono (eps : List Endpoint) (m : ClientMap)
    (k : String) (h : dict_contains m k = true) :
    dict_contains (eps.foldl mapStep m) k = true := by
  induction eps generalizing m with
  | nil => exact h
  | cons ep rest ih =>
    rw [List.foldl_cons]
    exact ih _ (contains_mapStep_mono m ep k h)

theorem get?_foldl_mapStep_first_reporter (eps : List Endpoint) (m : ClientMap)
    (k : String) (ep : Endpoint) (hk : k ≠ "")
    (hfind : eps.find? (fun e => reportsB e k) = some ep)
    (hfb : ∀ e ∈ eps, ∀ err, e.probe = .failure err → e.name ++ ":default" ≠ k)
    (hnc : dict_contains m k = false) :
    dict_get? (eps.foldl mapStep m) k = some ep := by
  induction eps generalizing m with
  | nil => simp [List.find?] at hfind
  | cons e0 rest ih =>
    rw [List.foldl_cons]
    rw [List.find?_cons] at hfind
    by_cases hr : reportsB e0 k = true
    · rw [hr] at hfind
      have he0 : e0 = ep := by
        simpa using hfind
      subst he0
      exact get?_foldl_mapStep_preserve rest _ k e0
        (get?_mapStep_insert m e0 k hk hr hnc)
        (fun e he => hfb e (List.mem_cons_of_mem e0 he))
    · rw [Bool.not_eq_true] at hr
      rw [hr] at hfind
      simp only [cond_false] at hfind
      exact ih _ hfind (fun e he => hfb e (List.mem_cons_of_mem e0 he))
        (contains_mapStep_untouched m e0 k hr
          (hfb e0 (List.mem_cons_self e0 rest)) hnc)

/-! ### Registry invariants -/

theorem dict_keys_nodup_insertModel (ep : Endpoint) (m : ClientMap)
    (mid : String) (h : (dict_keys m).Nodup) :
    (dict_keys (insertModel ep m mid)).Nodup := by
  unfold insertModel
  split_ifs <;> first
    | exact h
    | exact dict_keys_nodup_set m mid ep h

theorem dict_keys_nodup_foldl_insertModel (ep : Endpoint) (models : List String)
    (m : ClientMap) (h : (dict_keys m).Nodup) :
    (dict_keys (models.foldl (insertModel ep) m)).Nodup := by
  induction models generalizing m with
  | nil => exact h
  | cons mid rest ih =>
    rw [List.foldl_cons]
    exact ih _ (dict_keys_nodup_insertModel ep m mid h)

theorem dict_keys_nodup_mapStep (m : ClientMap) (ep : Endpoint)
    (h : (dict_keys m).Nodup) : (dict_keys (mapStep m ep)).Nodup := by
  cases hp : ep.probe with
  | failure e =>
    simp only [mapStep, hp]
    exact dict_keys_nodup_set m _ ep h
  | success ms =>
    simp only [mapStep, hp]
    exact dict_keys_nodup_foldl_insertModel ep ms m h

theorem dict_keys_nodup_foldl_mapStep (eps : List Endpoint) (m : ClientMap)
    (h : (dict_keys m).Nodup) : (dict_keys (eps.foldl mapStep m)).Nodup := by
  induction eps generalizing m with
  | nil => exact h
  | cons ep rest ih =>
    rw [List.foldl_cons]
    exact ih _ (dict_keys_nodup_mapStep m ep h)

theorem modelMap_keys_nodup (eps : List Endpoint) :
    (dict_keys (modelMap eps)).Nodup := by
  rw [modelMap_eq]
  exact dict_keys_nodup_foldl_mapStep eps [] List.nodup_nil

/-- The synthesized fallback key an endpoint would contribute, when its
probe fails. -/
def fallbackKeyB (ep : Endpoint) : Option String :=
  match ep.probe with
  | .failure _ => some (ep.name ++ ":default")
  | .success _ => none

theorem fallbackKeyB_ne (ep : Endpoint) (k e : String)
    (h : fallbackKeyB ep ≠ some k) (hp : ep.probe = .failure e) :
    ep.name ++ ":default" ≠ k := by
  intro hkey
  exact h (by simp [fallbackKeyB, hp, hkey])

theorem keys_nonempty_set {α : Type} (m : List (String × α)) (kw : String)
    (v : α) (h : ∀ a ∈ dict_keys m, a ≠ "") (hkw : kw ≠ "") :
    ∀ a ∈ dict_keys (dict_set m kw v), a ≠ "" := by
  intro a ha
  rcases (mem_dict_keys_set m kw a v).mp ha with h1 | h2
  · exact h a h1
  · exact h2 ▸ hkw

theorem keys_nonempty_insertModel (ep : Endpoint) (m : ClientMap) (mid : String)
    (h : ∀ a ∈ dict_keys m, a ≠ "") :
    ∀ a ∈ dict_keys (insertModel ep m mid), a ≠ "" := by
  unfold insertModel
  split_ifs with h1 h2
  · exact h
  · exact keys_nonempty_set m mid ep h h1
  · exact h

theorem keys_nonempty_foldl_insertModel (ep : Endpoint) (models : List String)
    (m : ClientMap) (h : ∀ a ∈ dict_keys m, a ≠ "") :
    ∀ a ∈ dict_keys (models.foldl (insertModel ep) m), a ≠ "" := by
  induction models generalizing m with
  | nil => exact h
  | cons mid rest ih =>
    rw [List.foldl_cons]
    exact ih _ (keys_nonempty_insertModel ep m mid h)

theorem keys_nonempty_mapStep (m : ClientMap) (ep : Endpoint)
    (h : ∀ a ∈ dict_keys m, a ≠ "") :
    ∀ a ∈ dict_keys (mapStep m ep), a ≠ "" := by
  cases hp : ep.probe with
  | failure e =>
    simp only [mapStep, hp]
    exact keys_nonempty_set m _ ep h (default_key_ne_empty ep.name)
  | success ms =>
    simp only [mapStep, hp]
    exact keys_nonempty_foldl_insertModel ep ms m h

theorem keys_nonempty_foldl_mapStep (eps : List Endpoint) (m : ClientMap)
    (h : ∀ a ∈ dict_keys m, a ≠ "") :
    ∀ a ∈ dict_keys (eps.foldl mapStep m), a ≠ "" := by
  induction eps generalizing m with
  | nil => exact h
  | cons ep rest ih =>
    rw [List.foldl_cons]
    exact ih _ (keys_nonempty_mapStep m ep h)

/-! ### Claims -/

/-- C1, counterexample: two backends (first and third) successfully report
the same non-empty model id `X:default`, and the first of them is the
earliest reporter in configured order, yet after initialization the
registry maps that id to the handle of the second backend — whose probe
failed and whose synthesized fallback key collides with the id — so the
registry does not map the duplicate id to the earliest reporter. -/
theorem duplicate_first_seen_cex :
    reportsB ⟨"A", "uA", "kA", .success ["X:default"]⟩ "X:default" = true ∧
    reportsB ⟨"C", "uC", "kC", .success ["X:default"]⟩ "X:default" = true ∧
    List.find? (fun e => reportsB e "X:default")
        [⟨"A", "uA", "kA", .success ["X:default"]⟩,
         ⟨"X", "uB", "kB", .failure "boom"⟩,
         ⟨"C", "uC", "kC", .success ["X:default"]⟩] =
      some ⟨"A", "uA", "kA", .success ["X:default"]⟩ ∧
    dict_get? (modelMap
        [⟨"A", "uA", "kA", .success ["X:default"]⟩,
         ⟨"X", "uB", "kB", .failure "boom"⟩,
         ⟨"C", "uC", "kC", .success ["X:default"]⟩]) "X:default" =
      some ⟨"X", "uB", "kB", .failure "boom"⟩ ∧
    (⟨"X", "uB", "kB", .failure "boom"⟩ : Endpoint) ≠
      ⟨"A", "uA", "kA", .success ["X:default"]⟩ := by
  decide

/-- C1, amended: provided no failed backend contributes a fallback key
equal to the duplicated model id, the registry maps every non-empty model
id to the handle of the earliest backend (in configured descriptor order)
whose probe successfully reported it; later backends reporting the same id
never replace that binding. -/
theorem duplicate_first_seen_wins (eps : List Endpoint) (k : String)
    (ep : Endpoint) (hk : k ≠ "")
    (hfind : eps.find? (fun e => reportsB e k) = some ep)
    (hfb : ∀ e ∈ eps, fallbackKeyB e ≠ some k) :
    dict_get? (modelMap eps) k = some ep := by
  rw [modelMap_eq]
  exact get?_foldl_mapStep_first_reporter eps [] k ep hk hfind
    (fun e he err hpe => fallbackKeyB_ne e k err (hfb e he) hpe) rfl

theorem duplicate_first_seen_wins_witness :
    ("m2" : String) ≠ "" ∧
    List.find? (fun e => reportsB e "m2")
        [⟨"A", "u", "x", .success ["m1", "m2"]⟩,
         ⟨"B", "u", "x", .success ["m2", "m3"]⟩] =
      some ⟨"A", "u", "x", .success ["m1", "m2"]⟩ ∧
    dict_get? (modelMap
        [⟨"A", "u", "x", .success ["m1", "m2"]⟩,
         ⟨"B", "u", "x", .success ["m2", "m3"]⟩]) "m2" =
      some ⟨"A", "u", "x", .success ["m1", "m2"]⟩ :=
  ⟨by decide, by decide,
    duplicate_first_seen_wins
      [⟨"A", "u", "x", .success ["m1", "m2"]⟩,
       ⟨"B", "u", "x", .success ["m2", "m3"]⟩]
      "m2" ⟨"A", "u", "x", .success ["m1", "m2"]⟩
      (by decide) (by decide) (by decide)⟩

/-- C2, counterexample: a request with a present, non-empty two-message
history is dispatched as a single reconstructed user message carrying only
the first message content; the outbound dispatch does not carry the
caller message sequence. -/
theorem chat_history_forwarding_cex :
    (chat [("m1", ⟨"A", "u", "x", .success ["m1"]⟩)] (fun _ => Except.ok "hi")
        ⟨[⟨some "user", some "first"⟩, ⟨some "user", some "second"⟩],
         some "m1"⟩).2 =
      [⟨⟨"A", "u", "x", .success ["m1"]⟩, "m1", [⟨some "user", some "first"⟩]⟩] ∧
    (∀ call ∈ (chat [("m1", ⟨"A", "u", "x", .success ["m1"]⟩)]
        (fun _ => Except.ok "hi")
        ⟨[⟨some "user", some "first"⟩, ⟨some "user", some "second"⟩],
         some "m1"⟩).2,
      call.messages ≠
        [⟨some "user", some "first"⟩, ⟨some "user", some "second"⟩]) := by
  exact ⟨by decide, by decide⟩

/-- C2, amended: every outbound dispatch issued by `chat` carries exactly
one reconstructed single-turn user message, whose content is the content
of the first request message when extractable and the placeholder
`nothing` otherwise; the full message history is never forwarded. -/
theorem chat_dispatch_single_turn (registry : ClientMap)
    (respond : OutboundCall → Except String String) (body : ChatRequest)
    (call : OutboundCall) (h : call ∈ (chat registry respond body).2) :
    call.messages = [⟨some "user", some (extract_message body.messages)⟩] := by
  simp only [chat] at h
  split at h
  · cases h
  · split at h
    · cases h
    · split at h <;>
      · rw [List.mem_singleton] at h
        subst h
        rfl

theorem chat_dispatch_single_turn_witness :
    (⟨⟨"A", "u", "x", .success ["m1"]⟩, "m1",
        [⟨some "user", some "first"⟩]⟩ : OutboundCall) ∈
      (chat [("m1", ⟨"A", "u", "x", .success ["m1"]⟩)] (fun _ => Except.ok "hi")
        ⟨[⟨some "user", some "first"⟩, ⟨some "user", some "second"⟩],
         some "m1"⟩).2 ∧
    (⟨⟨"A", "u", "x", .success ["m1"]⟩, "m1",
        [⟨some "user", some "first"⟩]⟩ : OutboundCall).messages =
      [⟨some "user", some (extract_message
        [⟨some "user", some "first"⟩, ⟨some "user", some "second"⟩])⟩] :=
  ⟨by decide,
    chat_dispatch_single_turn [("m1", ⟨"A", "u", "x", .success ["m1"]⟩)]
      (fun _ => Except.ok "hi")
      ⟨[⟨some "user", some "first"⟩, ⟨some "user", some "second"⟩], some "m1"⟩
      ⟨⟨"A", "u", "x", .success ["m1"]⟩, "m1", [⟨some "user", some "first"⟩]⟩
      (by decide)⟩

/-- C3: in a descriptor list with pairwise distinct endpoint names (as the
`endpoint_i` names of `ENDPOINTS` always are), every descriptor whose
probe failed ends up with exactly one registry entry, keyed
`<name>:default`, bound to that descriptor itself, and later descriptors
are still processed around it. -/
theorem failed_probe_default_entry (eps : List Endpoint) (ep : Endpoint)
    (e : String) (hnd : (eps.map (fun x => x.name)).Nodup)
    (hmem : ep ∈ eps) (hfail : ep.probe = .failure e) :
    dict_get? (modelMap eps) (ep.name ++ ":default") = some ep ∧
    (modelMap eps).countP (fun p => p.1 == ep.name ++ ":default") = 1 := by
  obtain ⟨s, t, rfl⟩ := List.append_of_mem hmem
  have hget : dict_get? (modelMap (s ++ ep :: t)) (ep.name ++ ":default") =
      some ep := by
    rw [modelMap_eq, List.foldl_append, List.foldl_cons]
    apply get?_foldl_mapStep_preserve
    · simp only [mapStep, hfail]
      exact dict_get?_set_self _ _ _
    · intro e2 he2 err hpe2 hkey
      rw [List.map_append, List.map_cons] at hnd
      have hnd2 : (ep.name :: t.map (fun x => x.name)).Nodup :=
        (List.nodup_append.mp hnd).2.1
      have hnotin : ep.name ∉ t.map (fun x => x.name) :=
        (List.nodup_cons.mp hnd2).1
      have hin : e2.name ∈ t.map (fun x => x.name) :=
        List.mem_map_of_mem (fun x => x.name) he2
      have hne : e2.name = ep.name := string_append_right_cancel _ _ _ hkey
      exact hnotin (hne ▸ hin)
  exact ⟨hget, dict_countP_eq_one _ _ ep (modelMap_keys_nodup _) hget⟩

theorem failed_probe_default_entry_witness :
    dict_get? (modelMap [⟨"e0", "u", "x", .failure "down"⟩,
        ⟨"e1", "u", "x", .success ["m1"]⟩]) ("e0" ++ ":default") =
      some ⟨"e0", "u", "x", .failure "down"⟩ ∧
    (modelMap [⟨"e0", "u", "x", .failure "down"⟩,
        ⟨"e1", "u", "x", .success ["m1"]⟩]).countP
      (fun p => p.1 == "e0" ++ ":default") = 1 :=
  failed_probe_default_entry
    [⟨"e0", "u", "x", .failure "down"⟩, ⟨"e1", "u", "x", .success ["m1"]⟩]
    ⟨"e0", "u", "x", .failure "down"⟩ "down"
    (by decide) (by decide) (by decide)

/-- C4: a request with no explicit model id against a non-empty registry
routes to the first-inserted registry key — the head of the
insertion-ordered key list — and dispatches through the handle stored
under that key. -/
theorem chat_default_first_key (k : String) (ep : Endpoint) (rest : ClientMap)
    (respond : OutboundCall → Except String String) (msgs : List ChatMessage)
    (hk : k ≠ "") :
    (chat ((k, ep) :: rest) respond ⟨msgs, none⟩).2 =
      [⟨ep, k, [⟨some "user", some (extract_message msgs)⟩]⟩] := by
  cases hr : respond ⟨ep, k, [⟨some "user", some (extract_message msgs)⟩]⟩ <;>
    simp [chat, pyOrStr, pyTruthy, first_key, dict_contains, dict_get?, hk, hr]

theorem chat_default_first_key_witness :
    ("m1" : String) ≠ "" ∧
    (chat [("m1", ⟨"A", "u", "x", .success ["m1"]⟩)] (fun _ => Except.ok "hi")
        ⟨[⟨some "user", some "hello"⟩], none⟩).2 =
      [⟨⟨"A", "u", "x", .success ["m1"]⟩, "m1",
        [⟨some "user", some (extract_message [⟨some "user", some "hello"⟩])⟩]⟩] :=
  ⟨by decide,
    chat_default_first_key "m1" ⟨"A", "u", "x", .success ["m1"]⟩ []
      (fun _ => Except.ok "hi") [⟨some "user", some "hello"⟩] (by decide)⟩

/-- C5, counterexample: a request carrying the explicit model id `""` —
which is not a key of the (non-empty) registry — is not answered with the
model-not-found failure and does issue an outbound dispatch, because
Python truthiness treats the empty string like an absent model id and
falls back to the first registered model. -/
theorem model_not_found_blank_cex :
    dict_contains ([("m1", ⟨"A", "u", "x", .success ["m1"]⟩)] : ClientMap) "" =
      false ∧
    (chat [("m1", ⟨"A", "u", "x", .success ["m1"]⟩)] (fun _ => Except.ok "hi")
        ⟨[⟨some "user", some "hello"⟩], some ""⟩).2 ≠ [] ∧
    (chat [("m1", ⟨"A", "u", "x", .success ["m1"]⟩)] (fun _ => Except.ok "hi")
        ⟨[⟨some "user", some "hello"⟩], some ""⟩).1 ≠
      .err "Model not found or no models available" 404 := by
  exact ⟨by decide, by decide, by decide⟩

/-- C5, amended: a request carrying an explicit non-empty model id that is
not a registry key is answered with the 404 model-not-found failure and
issues no outbound dispatch to any backend. -/
theorem model_not_found_no_dispatch (registry : ClientMap)
    (respond : OutboundCall → Except String String) (body : ChatRequest)
    (mid : String) (hm : body.model = some mid) (hmid : mid ≠ "")
    (hnc : dict_contains registry mid = false) :
    chat registry respond body =
      (.err "Model not found or no models available" 404, []) := by
  simp only [chat, hm, pyOrStr, pyTruthy]
  simp [hmid, hnc]

theorem model_not_found_no_dispatch_witness :
    (⟨[⟨some "user", some "hello"⟩], some "zz"⟩ : ChatRequest).model =
      some "zz" ∧
    ("zz" : String) ≠ "" ∧
    dict_contains ([("m1", ⟨"A", "u", "x", .success ["m1"]⟩)] : ClientMap) "zz" =
      false ∧
    chat [("m1", ⟨"A", "u", "x", .success ["m1"]⟩)] (fun _ => Except.ok "hi")
        ⟨[⟨some "user", some "hello"⟩], some "zz"⟩ =
      (.err "Model not found or no models available" 404, []) :=
  ⟨rfl, by decide, by decide,
    model_not_found_no_dispatch [("m1", ⟨"A", "u", "x", .success ["m1"]⟩)]
      (fun _ => Except.ok "hi") ⟨[⟨some "user", some "hello"⟩], some "zz"⟩
      "zz" rfl (by decide) (by decide)⟩

/-- C6: with an empty descriptor list, initialization leaves the registry
empty, logs a warning but no error-level record, the model listing is
empty, and a subsequent chat request with no explicit model id is answered
with the no-models 404 failure without dispatching anywhere. -/
theorem empty_endpoints_behavior (prev : ClientMap)
    (respond : OutboundCall → Except String String) (msgs : List ChatMessage) :
    (initialize_model_map prev []).1 = [] ∧
    list_models (initialize_model_map prev []).1 = [] ∧
    (∃ l ∈ (initialize_model_map prev []).2, l.level = LogLevel.warning) ∧
    (∀ l ∈ (initialize_model_map prev []).2, l.level ≠ LogLevel.error) ∧
    chat (initialize_model_map prev []).1 respond ⟨msgs, none⟩ =
      (.err "Model not found or no models available" 404, []) := by
  have h : (initialize_model_map prev []).2 =
      [⟨.info, "Initializing model map..."⟩,
       ⟨.warning, "No endpoints configured in environment variables."⟩] := rfl
  refine ⟨rfl, rfl, ?_, ?_, rfl⟩ <;> rw [h] <;> decide

/-- C7: initialization is structurally idempotent — a second run over the
same descriptors and probe outcomes returns the same registry (and hence
the identical key set), because each run discards the previous mapping and
rebuilds wholesale. -/
theorem initialize_structurally_idempotent (prev : ClientMap)
    (eps : List Endpoint) :
    initialize_model_map (initialize_model_map prev eps).1 eps =
      initialize_model_map prev eps ∧
    dict_keys (initialize_model_map (initialize_model_map prev eps).1 eps).1 =
      dict_keys (initialize_model_map prev eps).1 :=
  ⟨rfl, rfl⟩

/-- C8, counterexample: whether the second descriptor its entry for the id
`A:default` keeps depends on the first descriptor probe outcome: when the
first probe fails, the final registry binds `A:default` to the first
(failed) backend, and when the same first descriptor succeeds instead, it
binds `A:default` to the second backend — so a later descriptor does not
end up in the registry exactly as it would had the earlier probe gone
differently. -/
theorem probe_failure_entries_cex :
    dict_get? (modelMap [⟨"A", "u", "x", .failure "boom"⟩,
        ⟨"B", "u", "x", .success ["A:default"]⟩]) "A:default" =
      some ⟨"A", "u", "x", .failure "boom"⟩ ∧
    dict_get? (modelMap [⟨"A", "u", "x", .success []⟩,
        ⟨"B", "u", "x", .success ["A:default"]⟩]) "A:default" =
      some ⟨"B", "u", "x", .success ["A:default"]⟩ ∧
    some (⟨"A", "u", "x", .failure "boom"⟩ : Endpoint) ≠
      some (⟨"B", "u", "x", .success ["A:default"]⟩ : Endpoint) := by
  exact ⟨by decide, by decide, by decide⟩

/-- C8, amended: a probe failure never aborts initialization — every
descriptor of the list is processed, and every descriptor (before or after
a failure) still contributes its keys to the final registry: the fallback
key when its probe failed, and every non-empty reported id when it
succeeded.  The bindings of those keys, however, may depend on the other
probes through first-seen-wins and the fallback overwrite. -/
theorem probe_failure_never_aborts (eps : List Endpoint) (ep : Endpoint)
    (hmem : ep ∈ eps) :
    (∀ e, ep.probe = .failure e →
      dict_contains (modelMap eps) (ep.name ++ ":default") = true) ∧
    (∀ ms, ep.probe = .success ms → ∀ mid ∈ ms, mid ≠ "" →
      dict_contains (modelMap eps) mid = true) := by
  obtain ⟨s, t, rfl⟩ := List.append_of_mem hmem
  rw [modelMap_eq, List.foldl_append, List.foldl_cons]
  constructor
  · intro e hpe
    apply contains_foldl_mapStep_mono
    simp only [mapStep, hpe]
    exact dict_contains_set_self _ _ _
  · intro ms hps mid hmm hmid
    apply contains_foldl_mapStep_mono
    simp only [mapStep, hps]
    exact contains_foldl_insertModel_of_mem ep ms _ mid hmid hmm

theorem probe_failure_never_aborts_witness :
    (⟨"B", "u", "x", .success ["m"]⟩ : Endpoint) ∈
      ([⟨"A", "u", "x", .failure "boom"⟩, ⟨"B", "u", "x", .success ["m"]⟩] :
        List Endpoint) ∧
    dict_contains (modelMap [⟨"A", "u", "x", .failure "boom"⟩,
      ⟨"B", "u", "x", .success ["m"]⟩]) "m" = true :=
  ⟨by decide,
    (probe_failure_never_aborts
        [⟨"A", "u", "x", .failure "boom"⟩, ⟨"B", "u", "x", .success ["m"]⟩]
        ⟨"B", "u", "x", .success ["m"]⟩ (by decide)).2
      ["m"] rfl "m" (by decide) (by decide)⟩

/-- C9: after any initialization every registry key is a non-empty string;
a blank id reported by a successful probe is never inserted (it only
leaves a warning in the log, as witnessed by the blank branch of the model
loop). -/
theorem registry_keys_nonempty (prev : ClientMap) (eps : List Endpoint)
    (k : String) (hk : k ∈ dict_keys (initialize_model_map prev eps).1) :
    k ≠ "" := by
  rw [initialize_model_map_fst] at hk
  exact keys_nonempty_foldl_mapStep eps [] (by intro a ha; cases ha) k hk

theorem registry_keys_nonempty_witness :
    ("e0" ++ ":default") ∈
      dict_keys (initialize_model_map []
        [⟨"e0", "u", "x", .failure "boom"⟩]).1 ∧
    ("e0" ++ ":default") ≠ "" :=
  ⟨by decide,
    registry_keys_nonempty [] [⟨"e0", "u", "x", .failure "boom"⟩]
      ("e0" ++ ":default") (by decide)⟩

/-- C10: the fallback insertion performed when a probe fails is a plain
overwrite: if an earlier successful probe already registered the very id
`<name>:default` of a later failing backend, the entry afterwards maps to
the failing backend handle, not to the earlier one — the
only-if-not-already-present check guards only probed ids, not fallback
entries. -/
theorem fallback_overwrites_binding (A B : Endpoint) (ms : List String)
    (mid e : String) (hA : A.probe = .success ms) (hmm : mid ∈ ms)
    (hmid : mid ≠ "") (hB : B.probe = .failure e)
    (hkey : B.name ++ ":default" = mid) :
    dict_get? (modelMap [A]) mid = some A ∧
    dict_get? (modelMap [A, B]) mid = some B := by
  have h1 : dict_get? (modelMap [A]) mid = some A := by
    rw [modelMap_eq]
    simp only [List.foldl_cons, List.foldl_nil, mapStep, hA]
    exact get?_foldl_insertModel_of_mem A ms [] mid hmid hmm rfl
  refine ⟨h1, ?_⟩
  rw [modelMap_eq]
  simp only [List.foldl_cons, List.foldl_nil]
  have h2 : mapStep (mapStep ([] : ClientMap) A) B =
      dict_set (mapStep ([] : ClientMap) A) (B.name ++ ":default") B := by
    simp only [mapStep, hB]
  rw [h2, hkey]
  exact dict_get?_set_self _ _ _

theorem fallback_overwrites_binding_witness :
    (⟨"A", "u", "x", .success ["B:default"]⟩ : Endpoint).probe =
      .success ["B:default"] ∧
    ("B:default" : String) ∈ (["B:default"] : List String) ∧
    ("B:default" : String) ≠ "" ∧
    (⟨"B", "u", "x", .failure "boom"⟩ : Endpoint).probe = .failure "boom" ∧
    ("B" ++ ":default" : String) = "B:default" ∧
    dict_get? (modelMap [⟨"A", "u", "x", .success ["B:default"]⟩]) "B:default" =
      some ⟨"A", "u", "x", .success ["B:default"]⟩ ∧
    dict_get? (modelMap [⟨"A", "u", "x", .success ["B:default"]⟩,
        ⟨"B", "u", "x", .failure "boom"⟩]) "B:default" =
      some ⟨"B", "u", "x", .failure "boom"⟩ :=
  ⟨rfl, by decide, by decide, rfl, by decide,
    (fallback_overwrites_binding ⟨"A", "u", "x", .success ["B:default"]⟩
      ⟨"B", "u", "x", .failure "boom"⟩ ["B:default"] "B:default" "boom"
      rfl (by decide) (by decide) rfl (by decide)).1,
    (fallback_overwrites_binding ⟨"A", "u", "x", .success ["B:default"]⟩
      ⟨"B", "u", "x", .failure "boom"⟩ ["B:default"] "B:default" "boom"
      rfl (by decide) (by decide) rfl (by decide)).2⟩

end Slop
